import Mathlib

/-!
# Verification of the template-assembly core of `aws-cf-generator`

Shallow embedding of the repository's JavaScript sources:

* `lib/dir-info.js` — the `DirInfo` class (path-derived identifier scopes);
* `lib/templates/template.js` — the base `Template` class (raw property
  trees with deferred `<% token %>` interpolation);
* `lib/template-builder.js` — the `TemplateBuilder` class (recursive
  asynchronous directory walk that loads template generator modules).

JavaScript strings become `String`, arrays become `List`, plain objects
become association lists `List (String × _)` (JavaScript objects have
unique string keys and preserve insertion order), thrown exceptions become
`Except`, and promise settlement becomes the four-state `Outcome` type
(resolved / rejected / never-settling / process-crashing), which is needed
to express the builder's promise wiring faithfully.
-/

/-- JavaScript `String.prototype.split` with a one-character separator,
on character lists.  Always returns a non-empty list of (possibly empty)
fragments, exactly like the JavaScript method. -/
def splitSep (sep : Char) : List Char → List (List Char)
  | [] => [[]]
  | c :: rest =>
    let r := splitSep sep rest
    if c = sep then [] :: r
    else
      match r with
      | t :: ts => (c :: t) :: ts
      | [] => [[c]]

/-- `relPath.split(_path.sep)` from `dir-info.js` (the path separator is
`'/'`). -/
def splitPath (s : String) : List String :=
  (splitSep '/' s.data).map String.mk

/-- Node's `path.join` applied to a list of simple path segments: empty
segments are dropped, remaining segments are joined with `'/'`, and the
empty join yields `"."`.  (Normalization of `"."`/`".."` segments, which
never arise here, is not modelled.) -/
def pathJoin (tokens : List String) : String :=
  let joined := String.intercalate "/" (tokens.filter (fun t => t ≠ ""))
  if joined = "" then "." else joined

/-- The `JOIN_CHARACTER` constant of `dir-info.js`. -/
def joinCharacter : String := "_"

/-- The `DirInfo` class of `dir-info.js` (the spec's `PathScope`).  The
source stores `_templateRoot` (after `path.resolve`, modelled as the
identity since every claim compares scopes built from one identical root
string), `_relPath`, and caches `_dirPath` and `_pathTokens`, which are
recomputed here from the two stored fields. -/
structure DirInfo where
  templateRoot : String
  relPath : String
deriving Repr, DecidableEq

/-- `this._pathTokens = this._relPath.split(_path.sep)`. -/
def DirInfo.pathTokens (d : DirInfo) : List String :=
  splitPath d.relPath

/-- The `level` getter: `this._pathTokens.length`. -/
def DirInfo.level (d : DirInfo) : Nat :=
  d.pathTokens.length

/-- The `DirInfo` constructor: rejects an empty template root or relative
path, then stores both. -/
def DirInfo.create (templateRoot relPath : String) : Except String DirInfo :=
  if ¬ templateRoot.length > 0 then
    .error "Invalid template root specified (arg 1)"
  else if ¬ relPath.length > 0 then
    .error "Invalid relative path specified (arg 2)"
  else
    .ok { templateRoot := templateRoot, relPath := relPath }

/-- `DirInfo.getToken` (the spec's `scopedToken`): joins all path tokens
with `'_'` and appends the token value. -/
def DirInfo.getToken (d : DirInfo) (tokenValue : String) : Except String String :=
  if ¬ tokenValue.length > 0 then
    .error "Invalid token value specified (arg 1)"
  else
    .ok (String.intercalate joinCharacter d.pathTokens ++ joinCharacter ++ tokenValue)

/-- `DirInfo.getParentToken` (the spec's `parentScopedToken`): `null`
(modelled `none`) when `pathTokens.length - 1 = 0`, otherwise the join of
all but the last token followed by the token value. -/
def DirInfo.getParentToken (d : DirInfo) (tokenValue : String) :
    Except String (Option String) :=
  if ¬ tokenValue.length > 0 then
    .error "Invalid token value specified (arg 1)"
  else
    let tokenLength := d.pathTokens.length - 1
    if tokenLength = 0 then
      .ok none
    else
      .ok (some (String.intercalate joinCharacter (d.pathTokens.take tokenLength) ++
        joinCharacter ++ tokenValue))

/-- `DirInfo.getRootToken` (the spec's `rootScopedToken`): built from
`this._pathTokens[0]` only. -/
def DirInfo.getRootToken (d : DirInfo) (tokenValue : String) : Except String String :=
  if ¬ tokenValue.length > 0 then
    .error "Invalid token value specified (arg 1)"
  else
    .ok (d.pathTokens.headI ++ joinCharacter ++ tokenValue)

/-- `DirInfo.getChildDir` (the spec's `deriveChild`): appends the child
segment to a copy of the path tokens, joins them back into a relative
path and constructs a fresh `DirInfo` with the same template root. -/
def DirInfo.getChildDir (d : DirInfo) (dir : String) : Except String DirInfo :=
  if ¬ dir.length > 0 then
    .error "Invalid child directory specified (arg 1)"
  else
    .ok { templateRoot := d.templateRoot, relPath := pathJoin (d.pathTokens ++ [dir]) }

theorem splitSep_ne_nil (sep : Char) : ∀ l : List Char, splitSep sep l ≠ [] := by
  intro l
  induction l with
  | nil => simp [splitSep]
  | cons c rest ih =>
    simp only [splitSep]
    split
    · simp
    · match h : splitSep sep rest with
      | [] => simp
      | t :: ts => simp

theorem splitPath_ne_nil (s : String) : splitPath s ≠ [] := by
  simp only [splitPath, ne_eq, List.map_eq_nil_iff]
  exact splitSep_ne_nil '/' s.data

/-- Every scope's depth is at least 1: `split` never yields an empty
token list. -/
theorem DirInfo.level_pos (d : DirInfo) : 1 ≤ d.level := by
  have h := splitPath_ne_nil d.relPath
  simp only [DirInfo.level, DirInfo.pathTokens]
  exact Nat.succ_le_of_lt (List.length_pos.mpr h)

/-- A JavaScript property value as stored in a template's `_properties`
tree: strings, numbers, booleans, `null`, `undefined`, arrays and plain
objects (association lists with insertion order). -/
inductive Value where
  | str : String → Value
  | num : Int → Value
  | bool : Bool → Value
  | null : Value
  | undef : Value
  | arr : List Value → Value
  | obj : List (String × Value) → Value

/-- Membership-based induction principle for the nested inductive
`Value`. -/
def Value.inductionOn (P : Value → Prop)
    (hstr : ∀ s, P (.str s)) (hnum : ∀ n, P (.num n)) (hbool : ∀ b, P (.bool b))
    (hnull : P .null) (hundef : P .undef)
    (harr : ∀ xs, (∀ x, x ∈ xs → P x) → P (.arr xs))
    (hobj : ∀ kvs, (∀ kv, kv ∈ kvs → P kv.2) → P (.obj kvs)) :
    ∀ v, P v
  | .str s => hstr s
  | .num n => hnum n
  | .bool b => hbool b
  | .null => hnull
  | .undef => hundef
  | .arr xs => harr xs (fun x hx =>
      Value.inductionOn P hstr hnum hbool hnull hundef harr hobj x)
  | .obj kvs => hobj kvs (fun kv hkv =>
      Value.inductionOn P hstr hnum hbool hnull hundef harr hobj kv.2)
termination_by v => sizeOf v
decreasing_by
  · have h1 := List.sizeOf_lt_of_mem hx
    simp only [Value.arr.sizeOf_spec]
    omega
  · have h1 := List.sizeOf_lt_of_mem hkv
    have h2 : sizeOf kv.2 < sizeOf kv := by
      obtain ⟨k, v⟩ := kv
      simp only [Prod.mk.sizeOf_spec]
      omega
    simp only [Value.obj.sizeOf_spec]
    omega

/-- The flat data bag supplied at finalize time (`key → value`). -/
abbrev DataBag := List (String × String)

/-- JavaScript object property read on a data bag: first (only) binding
of the key. -/
def lookupBag (data : DataBag) (key : String) : Option String :=
  (data.find? (fun p => p.1 = key)).map (fun p => p.2)

/-- Modelled from the spec: the external `interpolate` npm utility used by
`Template._finalizeProperty` (an npm dependency, not part of this
repository).  Per the spec, it substitutes "every placeholder in the form
`<% identifier %>` with the corresponding value in `dataBag`", leaving an
unmatched placeholder verbatim (one of the two behaviors the spec
allows).  `readPlaceholder` scans the characters after an opening `"<% "`
for the closing `" %>"` and returns the identifier together with the
remaining input. -/
def readPlaceholder : List Char → Option (List Char × List Char)
  | [] => none
  | c :: rest =>
    if c = ' ' ∧ rest.head? = some '%' ∧ rest.tail.head? = some '>' then
      some ([], rest.tail.tail)
    else
      match readPlaceholder rest with
      | some (inner, rem) => some (c :: inner, rem)
      | none => none

/-- Whether a character list contains the closing delimiter `" %>"`. -/
def hasClose : List Char → Bool
  | [] => false
  | c :: rest =>
    decide (c = ' ' ∧ rest.head? = some '%' ∧ rest.tail.head? = some '>') || hasClose rest

/-- Whether a character list contains the opening delimiter `"<% "`. -/
def hasOpen : List Char → Bool
  | [] => false
  | c :: rest =>
    decide (c = '<' ∧ rest.head? = some '%' ∧ rest.tail.head? = some ' ') || hasOpen rest

theorem readPlaceholder_length : ∀ (l inner rem : List Char),
    readPlaceholder l = some (inner, rem) → rem.length < l.length := by
  intro l
  induction l with
  | nil => intro inner rem h; simp [readPlaceholder] at h
  | cons c rest ih =>
    intro inner rem h
    simp only [readPlaceholder] at h
    split at h
    · simp only [Option.some.injEq, Prod.mk.injEq] at h
      obtain ⟨h1, h2⟩ := h
      subst h2
      have t1 : rest.tail.length ≤ rest.length := by cases rest <;> simp
      have t2 : rest.tail.tail.length ≤ rest.tail.length := by cases rest.tail <;> simp
      simp only [List.length_cons]
      omega
    · match hr : readPlaceholder rest with
      | some (inner2, rem2) =>
        rw [hr] at h
        simp only [Option.some.injEq, Prod.mk.injEq] at h
        obtain ⟨he1, he2⟩ := h
        subst he2
        have := ih inner2 rem2 hr
        simp only [List.length_cons]
        omega
      | none => rw [hr] at h; exact absurd h (by simp)

/-- Modelled from the spec (continuation of the external `interpolate`
utility): scan the input; at each occurrence of `"<% "` followed by a
closing `" %>"`, look the enclosed identifier up in the data bag and
substitute its value, leaving the placeholder verbatim when the
identifier is absent; all other characters are copied unchanged. -/
def interpChars (data : DataBag) : List Char → List Char
  | [] => []
  | c :: rest =>
    if c = '<' ∧ rest.head? = some '%' ∧ rest.tail.head? = some ' ' then
      match h : readPlaceholder rest.tail.tail with
      | some (inner, rem) =>
        match lookupBag data (String.mk inner) with
        | some v => v.data ++ interpChars data rem
        | none => c :: '%' :: ' ' :: (inner ++ ' ' :: '%' :: '>' :: interpChars data rem)
      | none => c :: interpChars data rest
    else c :: interpChars data rest
termination_by l => l.length
decreasing_by
  all_goals simp only [List.length_cons]
  all_goals first
    | (have h1 := readPlaceholder_length _ _ _ h
       have t1 : rest.tail.length ≤ rest.length := by cases rest <;> simp
       have t2 : rest.tail.tail.length ≤ rest.tail.length := by cases rest.tail <;> simp
       omega)
    | omega

/-- The string-level interpolation entry point. -/
def interpolate (s : String) (data : DataBag) : String :=
  String.mk (interpChars data s.data)

/-- Whether a string contains the opening placeholder delimiter. -/
def hasPlaceholder (s : String) : Bool :=
  hasOpen s.data

theorem interpChars_of_no_open (data : DataBag) :
    ∀ l : List Char, hasOpen l = false → interpChars data l = l := by
  intro l
  induction l with
  | nil => intro _; simp [interpChars]
  | cons c rest ih =>
    intro h
    simp only [hasOpen, Bool.or_eq_false_iff, decide_eq_false_iff_not] at h
    obtain ⟨h1, h2⟩ := h
    simp only [interpChars]
    rw [if_neg h1]
    rw [ih h2]

theorem readPlaceholder_append :
    ∀ inner : List Char, hasClose inner = false →
    ∀ rem : List Char, readPlaceholder (inner ++ ' ' :: '%' :: '>' :: rem) = some (inner, rem) := by
  intro inner
  induction inner with
  | nil =>
    intro _ rem
    simp [readPlaceholder]
  | cons c cs ih =>
    intro h rem
    simp only [hasClose, Bool.or_eq_false_iff, decide_eq_false_iff_not] at h
    obtain ⟨h1, h2⟩ := h
    simp only [List.cons_append, readPlaceholder]
    match cs with
    | [] =>
      rw [if_neg (by simp)]
      simp only [List.append_eq]
      rw [ih h2 rem]
    | [a] =>
      rw [if_neg (by simp)]
      simp only [List.append_eq]
      rw [ih h2 rem]
    | a :: b :: cs2 =>
      rw [if_neg (by simpa using h1)]
      simp only [List.append_eq]
      rw [ih h2 rem]

theorem interpolate_substitute (data : DataBag) (id v tl : String)
    (hc : hasClose id.data = false) (hl : lookupBag data id = some v) :
    interpolate ("<% " ++ id ++ " %>" ++ tl) data = v ++ interpolate tl data := by
  have hr := readPlaceholder_append id.data hc tl.data
  have hdata : ("<% " ++ id ++ " %>" ++ tl).data
      = '<' :: '%' :: ' ' :: (id.data ++ ' ' :: '%' :: '>' :: tl.data) := by
    simp [String.data_append]
  simp only [interpolate, hdata]
  rw [interpChars.eq_2]
  rw [if_pos (by simp)]
  simp only [List.tail_cons]
  split
  · rename_i inner rem heq
    rw [hr] at heq
    simp only [Option.some.injEq, Prod.mk.injEq] at heq
    obtain ⟨hi, hrem⟩ := heq
    subst hi
    subst hrem
    have hmk : String.mk id.data = id := rfl
    rw [hmk, hl]
    rfl
  · rename_i heq
    rw [hr] at heq
    exact absurd heq (by simp)

theorem interpolate_of_no_placeholder (data : DataBag) (s : String)
    (h : hasPlaceholder s = false) : interpolate s data = s := by
  simp only [interpolate]
  rw [interpChars_of_no_open data s.data h]

/-- JavaScript object property write `obj[k] = v` on an association list:
an existing binding keeps its position, a new binding is appended (the
insertion-order semantics of JavaScript objects with string keys). -/
def setKey {α : Type} : List (String × α) → String → α → List (String × α)
  | [], k, v => [(k, v)]
  | (k1, v1) :: rest, k, v =>
    if k1 = k then (k, v) :: rest else (k1, v1) :: setKey rest k v

/-- JavaScript object property read on an association list. -/
def getKey {α : Type} : List (String × α) → String → Option α
  | [], _ => none
  | (k1, v1) :: rest, k => if k1 = k then some v1 else getKey rest k

/-- Uppercase the first character of a word, leaving the rest unchanged. -/
def capitalizeWord (w : List Char) : List Char :=
  match w with
  | [] => []
  | c :: cs => c.toUpper :: cs

/-- Lowercase the first character of a word, leaving the rest unchanged. -/
def decapitalizeWord (w : List Char) : List Char :=
  match w with
  | [] => []
  | c :: cs => c.toLower :: cs

/-- The external `camelcase` npm package (a dependency, not part of this
repository), modelled for simple inputs: the key is split into words on
`'-'`, `'_'` and spaces; the first character after each separator is
uppercased, the first character of the result is lowercased, and all
other characters are left unchanged. -/
def camelCase (s : String) : String :=
  let ws := (((splitSep '-' s.data).flatMap (splitSep '_')).flatMap
    (splitSep ' ')).filter (fun w => w ≠ [])
  match ws with
  | [] => ""
  | w :: rest => String.mk (decapitalizeWord w ++ (rest.map capitalizeWord).flatten)

/-- The base `Template` class of `lib/templates/template.js` (the spec's
`Document`): `_key` (the camel-cased key), `_resourceType`, `_properties`
(a deep copy of the supplied property object) and `_exports` (a deep copy
of the supplied exports object taken after the `exports[key] = cfKey`
assignment). -/
structure Template where
  key : String
  resourceType : String
  properties : List (String × Value)
  exports : List (String × String)

/-- The `Template` constructor.  Rejects an empty key or type; otherwise
it computes `cfKey = camelCase(key)`, performs `exports[key] = cfKey` on
the CALLER'S exports object, and stores deep copies of `props` and of the
just-mutated exports object.  The returned pair is `(the constructed
template, the caller's exports object after the call)`, the state-passing
rendering of the constructor's side effect on its fourth argument. -/
def Template.create (key type : String) (props : List (String × Value))
    (exports : List (String × String)) :
    Except String (Template × List (String × String)) :=
  if ¬ key.length > 0 then
    .error "Invalid key specified (arg 1)"
  else if ¬ type.length > 0 then
    .error "Invalid template type specified (arg 2)"
  else
    let cfKey := camelCase key
    let exportsMutated := setKey exports key cfKey
    .ok ({ key := cfKey, resourceType := type, properties := props,
           exports := exportsMutated }, exportsMutated)

mutual
/-- `Template._finalizeProperty`: strings are interpolated against the
data bag, arrays are mapped element-wise, objects are rebuilt key by key
with finalized values, and every other value is returned unchanged. -/
def finalizeProperty (v : Value) (data : DataBag) : Value :=
  match v with
  | .str s => .str (interpolate s data)
  | .arr xs => .arr (finalizeList xs data)
  | .obj kvs => .obj (finalizeObj kvs data)
  | v => v

/-- `value.map((item) => this._finalizeProperty(item, data))`. -/
def finalizeList (xs : List Value) (data : DataBag) : List Value :=
  match xs with
  | [] => []
  | x :: rest => finalizeProperty x data :: finalizeList rest data

/-- The `for(let prop in value) result[prop] = this._finalizeProperty(...)`
loop over a plain object. -/
def finalizeObj (kvs : List (String × Value)) (data : DataBag) :
    List (String × Value) :=
  match kvs with
  | [] => []
  | (k, v) :: rest => (k, finalizeProperty v data) :: finalizeObj rest data
end

/-- The produced markup of `Template.finalize`:
`{ Type: this._resourceType, Properties: {...} }`. -/
structure FinalDoc where
  docType : String
  docProperties : List (String × Value)

/-- `Template.finalize`: builds a fresh result object whose `Properties`
are the finalized copies of every stored property.  (The source defaults
a non-object data bag to `{}`; the typed embedding always receives a
bag.) -/
def Template.finalize (t : Template) (data : DataBag) : FinalDoc :=
  { docType := t.resourceType, docProperties := finalizeObj t.properties data }

/-- State-passing rendering of one `finalize` method call: the source's
`finalize` reads `this._properties` and only ever writes to fresh local
structures, so the template component of the post-state is the receiver
itself. -/
def Template.finalizeCall (t : Template) (data : DataBag) : Template × FinalDoc :=
  (t, t.finalize data)

/-- A sequence of `finalize` calls against successive data bags, each
threaded through the template state left by the previous call. -/
def Template.finalizeMany (t : Template) : List DataBag → Template × List FinalDoc
  | [] => (t, [])
  | d :: ds =>
    let r1 := t.finalizeCall d
    let r2 := r1.1.finalizeMany ds
    (r2.1, r1.2 :: r2.2)

mutual
/-- No string anywhere in the value contains the placeholder opener. -/
def noPlaceholderV (v : Value) : Bool :=
  match v with
  | .str s => !(hasPlaceholder s)
  | .arr xs => noPlaceholderL xs
  | .obj kvs => noPlaceholderO kvs
  | _ => true

def noPlaceholderL (xs : List Value) : Bool :=
  match xs with
  | [] => true
  | x :: rest => noPlaceholderV x && noPlaceholderL rest

def noPlaceholderO (kvs : List (String × Value)) : Bool :=
  match kvs with
  | [] => true
  | (_, v) :: rest => noPlaceholderV v && noPlaceholderO rest
end

theorem finalizeProperty_of_no_placeholder (data : DataBag) :
    ∀ v : Value, noPlaceholderV v = true → finalizeProperty v data = v := by
  intro v
  induction v using Value.inductionOn with
  | hstr s =>
    intro h
    simp only [noPlaceholderV, Bool.not_eq_true'] at h
    simp only [finalizeProperty]
    rw [interpolate_of_no_placeholder data s h]
  | hnum n => intro _; rfl
  | hbool b => intro _; rfl
  | hnull => intro _; rfl
  | hundef => intro _; rfl
  | harr xs ih =>
    intro h
    simp only [noPlaceholderV] at h
    simp only [finalizeProperty, Value.arr.injEq]
    induction xs with
    | nil => rfl
    | cons x rest ihl =>
      simp only [noPlaceholderL, Bool.and_eq_true] at h
      simp only [finalizeList]
      rw [ih x (by simp) h.1]
      rw [ihl (fun y hy hp => ih y (by simp [hy]) hp) h.2]
  | hobj kvs ih =>
    intro h
    simp only [noPlaceholderV] at h
    simp only [finalizeProperty, Value.obj.injEq]
    induction kvs with
    | nil => rfl
    | cons kv rest ihl =>
      obtain ⟨k, v⟩ := kv
      simp only [noPlaceholderO, Bool.and_eq_true] at h
      simp only [finalizeObj]
      rw [ih (k, v) (by simp) h.1]
      rw [ihl (fun y hy hp => ih y (by simp [hy]) hp) h.2]

theorem finalizeObj_of_no_placeholder (data : DataBag) :
    ∀ kvs : List (String × Value), noPlaceholderO kvs = true →
    finalizeObj kvs data = kvs := by
  intro kvs
  induction kvs with
  | nil => intro _; rfl
  | cons kv rest ih =>
    intro h
    obtain ⟨k, v⟩ := kv
    simp only [noPlaceholderO, Bool.and_eq_true] at h
    simp only [finalizeObj]
    rw [finalizeProperty_of_no_placeholder data v h.1, ih h.2]

theorem finalizeList_eq_map (data : DataBag) :
    ∀ xs : List Value, finalizeList xs data = xs.map (fun x => finalizeProperty x data) := by
  intro xs
  induction xs with
  | nil => rfl
  | cons x rest ih => simp only [finalizeList, List.map_cons, ih]

theorem finalizeObj_eq_map (data : DataBag) :
    ∀ kvs : List (String × Value),
    finalizeObj kvs data = kvs.map (fun kv => (kv.1, finalizeProperty kv.2 data)) := by
  intro kvs
  induction kvs with
  | nil => rfl
  | cons kv rest ih =>
    obtain ⟨k, v⟩ := kv
    simp only [finalizeObj, List.map_cons, ih]

theorem finalizeMany_unchanged (t : Template) :
    ∀ ds : List DataBag,
    (t.finalizeMany ds).1 = t ∧ (t.finalizeMany ds).2 = ds.map t.finalize := by
  intro ds
  induction ds with
  | nil => exact ⟨rfl, rfl⟩
  | cons d rest ih =>
    simp only [Template.finalizeMany, Template.finalizeCall, List.map_cons]
    exact ⟨ih.1, by rw [ih.2]⟩

theorem getKey_setKey_self {α : Type} (k : String) (v : α) :
    ∀ l : List (String × α), getKey (setKey l k v) k = some v := by
  intro l
  induction l with
  | nil => simp [setKey, getKey]
  | cons p rest ih =>
    obtain ⟨k1, v1⟩ := p
    simp only [setKey]
    split
    · simp [getKey]
    · rename_i hne
      simp only [getKey]
      rw [if_neg hne]
      exact ih

theorem setKey_setKey_self {α : Type} (k : String) (v w : α) :
    ∀ l : List (String × α), setKey (setKey l k v) k w = setKey l k w := by
  intro l
  induction l with
  | nil => simp [setKey]
  | cons p rest ih =>
    obtain ⟨k1, v1⟩ := p
    simp only [setKey]
    split
    · simp [setKey]
    · rename_i hne
      simp only [setKey]
      rw [if_neg hne, ih]

/-- Modelled from the spec: `Template._ensureProperty` is called
throughout `lib/templates/api-gateway/method-template.js` but its
definition is not among the provided sources (only its callers are).
Per the spec: "`ensureProperty(path, defaultValue)` must create every
missing intermediate mapping along `path` and return a mutable handle to
the final segment, initializing it to `defaultValue` only if absent,
leaving an existing value untouched otherwise."  The state-passing
rendering returns the updated property object; an intermediate segment
that is absent (or not an object) is replaced by a fresh mapping. -/
def ensurePath : List String → List (String × Value) → Value → List (String × Value)
  | [], m, _ => m
  | [k], m, d =>
    match getKey m k with
    | some _ => m
    | none => setKey m k d
  | k :: k2 :: rest, m, d =>
    let sub := match getKey m k with
      | some (.obj o) => o
      | _ => []
    setKey m k (.obj (ensurePath (k2 :: rest) sub d))

/-- Read the value at a dotted path through nested object mappings. -/
def getAtPath : List String → List (String × Value) → Option Value
  | [], _ => none
  | [k], m => getKey m k
  | k :: k2 :: rest, m =>
    match getKey m k with
    | some (.obj o) => getAtPath (k2 :: rest) o
    | _ => none

/-- JavaScript `path.split('.')` used by `_ensureProperty` callers such
as `this._ensureProperty('Integration.RequestTemplates')`. -/
def dotSplit (path : String) : List String :=
  (splitSep '.' path.data).map String.mk

/-- Modelled from the spec: the `Template`-level `_ensureProperty`, the
shared mechanism of the domain-specific setters. -/
def Template.ensureProperty (t : Template) (path : String) (d : Value) : Template :=
  { t with properties := ensurePath (dotSplit path) t.properties d }

theorem getAtPath_empty : ∀ p : List String, p ≠ [] →
    getAtPath p ([] : List (String × Value)) = none := by
  intro p h
  match p with
  | [k] => rfl
  | k :: k2 :: r => rfl

theorem getAtPath_ensurePath (d : Value) :
    ∀ (p : List String) (m : List (String × Value)), p ≠ [] →
    getAtPath p (ensurePath p m d) = some ((getAtPath p m).getD d) := by
  intro p
  induction p with
  | nil => intro m h; exact absurd rfl h
  | cons k rest ih =>
    intro m _
    match rest with
    | [] =>
      simp only [ensurePath, getAtPath]
      match hk : getKey m k with
      | some v => simp [hk]
      | none => simp [getKey_setKey_self, hk]
    | k2 :: rest2 =>
      simp only [ensurePath, getAtPath]
      rw [getKey_setKey_self]
      match hk : getKey m k with
      | some (.obj o) =>
        simp only [hk]
        exact ih o (by simp)
      | none =>
        simp only [hk]
        rw [ih [] (by simp), getAtPath_empty _ (by simp)]
      | some (.str s) =>
        simp only [hk]
        rw [ih [] (by simp), getAtPath_empty _ (by simp)]
      | some (.num n) =>
        simp only [hk]
        rw [ih [] (by simp), getAtPath_empty _ (by simp)]
      | some (.bool b) =>
        simp only [hk]
        rw [ih [] (by simp), getAtPath_empty _ (by simp)]
      | some .null =>
        simp only [hk]
        rw [ih [] (by simp), getAtPath_empty _ (by simp)]
      | some .undef =>
        simp only [hk]
        rw [ih [] (by simp), getAtPath_empty _ (by simp)]
      | some (.arr xs) =>
        simp only [hk]
        rw [ih [] (by simp), getAtPath_empty _ (by simp)]

theorem ensurePath_idempotent (d : Value) :
    ∀ (p : List String) (m : List (String × Value)),
    ensurePath p (ensurePath p m d) d = ensurePath p m d := by
  intro p
  induction p with
  | nil => intro m; rfl
  | cons k rest ih =>
    intro m
    match rest with
    | [] =>
      simp only [ensurePath]
      match hk : getKey m k with
      | some v => simp [hk]
      | none => simp [hk, getKey_setKey_self]
    | k2 :: rest2 =>
      simp only [ensurePath]
      rw [getKey_setKey_self]
      rw [ih]
      rw [setKey_setKey_self]

/-- A JavaScript error value (identified by its message). -/
structure JsErr where
  msg : String
deriving Repr, DecidableEq

/-- The observable settlement of a JavaScript promise chain:
`resolved`/`rejected` are ordinary settlement, `hung` is a promise that
never settles (no handler ever wires a result to it), and `crashed` is an
exception thrown inside a plain Node callback, which escapes the promise
machinery entirely and takes down the process. -/
inductive Outcome (α : Type) where
  | resolved : α → Outcome α
  | rejected : JsErr → Outcome α
  | hung : Outcome α
  | crashed : JsErr → Outcome α
deriving Repr, DecidableEq

/-- A JavaScript value as far as the builder's generator handling is
concerned: a template object, an array, a function of
`(dirInfo, dataBag)` (whose invocation may throw), or a promise (whose
eventual settlement is carried as data — the builder itself never awaits
it). -/
inductive JsVal where
  | doc : Template → JsVal
  | arr : List JsVal → JsVal
  | fn : (DirInfo → DataBag → Except JsErr JsVal) → JsVal
  | promise : Outcome JsVal → JsVal

/-- Node `path.parse(...).ext` on a base name: the suffix from the last
dot, except that a lone leading dot marks a hidden file with no
extension. -/
def extname (name : String) : String :=
  let r := name.data.reverse
  let extRev := r.takeWhile (fun c => c ≠ '.')
  let rest := r.dropWhile (fun c => c ≠ '.')
  match rest with
  | [] => ""
  | [_] => ""
  | _ :: _ :: _ => String.mk ('.' :: extRev.reverse)

/-- A node of the file system as the builder observes it.  A directory
carries the outcome of `fs.readdir` on it (listing failure included); a
file carries the outcome of `require(...)` on it (a throwing module is
`.error`); `statFail` is an entry whose `fs.stat` call errors. -/
inductive FsNode where
  | dir : Except JsErr (List (String × FsNode)) → FsNode
  | file : Except JsErr JsVal → FsNode
  | statFail : JsErr → FsNode

/-- Lines 74–77 of `template-builder.js`: `typeof templates === 'function'`
makes the builder invoke the generator with `(this._dirInfo,
this._dataBag)`; anything else is used as-is.  A throw inside the call is
an `Except.error`. -/
def invoke (m : JsVal) (info : DirInfo) (bag : DataBag) : Except JsErr JsVal :=
  match m with
  | .fn f => f info bag
  | v => .ok v

/-- Lines 79–81 of `template-builder.js`: a non-array result is wrapped
into a one-element array; an array passes through unchanged.  Note that a
promise is "not an Array" and is therefore wrapped as-is, without being
awaited. -/
def normalizeToArray (t : JsVal) : List JsVal :=
  match t with
  | .arr xs => xs
  | v => [v]

/-- Lines 72–87 of `template-builder.js`: the value exported by a loaded
generator module is invoked if callable, then normalized to an array. -/
def loadTemplates (info : DirInfo) (bag : DataBag) (m : JsVal) :
    Except JsErr (List JsVal) :=
  match invoke m info bag with
  | .error e => .error e
  | .ok t => .ok (normalizeToArray t)

/-- Follows the spec's words, for comparison with `loadTemplates` (claim
C2): "a callable taking `(scope, dataBag)` and returning either shape
synchronously or as a pending computation.  Normalize the result to a
flat sequence of Documents (wrap a single Document in a one-element
sequence)"; "await if pending, wrap scalar into a one-element sequence,
pass sequences through unchanged". -/
def normalizeResultSpec (info : DirInfo) (bag : DataBag) (m : JsVal) :
    Except JsErr (List JsVal) :=
  match invoke m info bag with
  | .error e => .error e
  | .ok t =>
    match t with
    | .promise (.resolved v) => .ok (normalizeToArray v)
    | .promise (.rejected e) => .error e
    | v => .ok (normalizeToArray v)

/-- `Promise.all` over the per-entry outcomes, combined with the fact
that a crash in any entry's callback kills the process: a crash anywhere
dominates, otherwise the first rejection rejects the aggregate, otherwise
a never-settling member keeps the aggregate pending, otherwise all the
resolutions are collected in order. -/
def promiseAll {α : Type} (l : List (Outcome α)) : Outcome (List α) :=
  match l.findSome? (fun o => match o with | .crashed e => some e | _ => none) with
  | some e => .crashed e
  | none =>
    match l.findSome? (fun o => match o with | .rejected e => some e | _ => none) with
    | some e => .rejected e
    | none =>
      if l.any (fun o => match o with | .hung => true | _ => false) then .hung
      else .resolved (l.filterMap
        (fun o => match o with | .resolved a => some a | _ => none))

mutual
/-- `TemplateBuilder.build` (lines 105–140 of `template-builder.js`) on a
directory whose `fs.readdir` outcome is `listing`: a listing error is
`reject(err)`-ed; otherwise every entry is dispatched through
`_generateTemplates` and the results are concatenated.  The source's
`Promise.all(promises).then(...)` has NO rejection handler and the outer
promise's `reject` is never wired to it, so when any entry's promise
rejects the `build()` promise never settles (`hung`). -/
def buildDir (bag : DataBag) (info : DirInfo)
    (listing : Except JsErr (List (String × FsNode))) : Outcome (List JsVal) :=
  match listing with
  | .error e => .rejected e
  | .ok entries =>
    match promiseAll (mapEntries bag info entries) with
    | .resolved ls => .resolved ls.flatten
    | .rejected _ => .hung
    | .crashed e => .crashed e
    | .hung => .hung

/-- The `data.forEach(...)` loop of `build()`: one
`_generateTemplates` promise per directory entry, in listing order. -/
def mapEntries (bag : DataBag) (info : DirInfo) :
    List (String × FsNode) → List (Outcome (List JsVal))
  | [] => []
  | (name, node) :: rest =>
    processEntry bag info name node :: mapEntries bag info rest

/-- `TemplateBuilder._generateTemplates` (lines 49–95) for one directory
entry.  A `stat` failure is `reject(err)`-ed.  A subdirectory derives a
child scope and recurses; the source's `childBuilder.build().then(resolve)`
has no rejection handler, so a rejecting child build leaves this entry's
promise unsettled (`hung`).  A `.js` file is `require`-d and its export
run through `loadTemplates`; an exception there is thrown inside the
`fs.stat` callback and crashes the process.  Any other file resolves with
an empty list. -/
def processEntry (bag : DataBag) (info : DirInfo) (name : String)
    (node : FsNode) : Outcome (List JsVal) :=
  match node with
  | .statFail e => .rejected e
  | .dir listing =>
    match info.getChildDir name with
    | .error e => .crashed ⟨e⟩
    | .ok childInfo =>
      match buildDir bag childInfo listing with
      | .resolved docs => .resolved docs
      | .rejected _ => .hung
      | .crashed e => .crashed e
      | .hung => .hung
  | .file loaded =>
    if extname name = ".js" then
      match loaded with
      | .error e => .crashed e
      | .ok v =>
        match loadTemplates info bag v with
        | .error e => .crashed e
        | .ok templates => .resolved templates
    else .resolved []
end

/-- The public `build()` entry point: the builder over a directory node
is the walk over that directory's listing outcome. -/
def TemplateBuilder.build (bag : DataBag) (info : DirInfo)
    (listing : Except JsErr (List (String × FsNode))) : Outcome (List JsVal) :=
  buildDir bag info listing

/-- A sample document used to instantiate witnesses: the spec's scenario
`Document(key="list", resourceType="Resource", properties={PathPart:
"orders"})`. -/
def sampleDoc : Template :=
  { key := "list", resourceType := "AWS::ApiGateway::Resource",
    properties := [("PathPart", Value.str "orders")], exports := [] }

/-- A sample root-level scope used to instantiate witnesses. -/
def sampleScope : DirInfo := { templateRoot := "/r", relPath := "orders" }

/-- C5: for every `PathScope`, `parentScopedToken(suffix)` returns an
absent/null result exactly when the scope's depth is 1, and otherwise
returns the separator-join of `pathTokens` minus the last segment
followed by the suffix. -/
theorem c5_parent_scoped_token (d : DirInfo) (tv : String) (h : tv.length > 0) :
    (d.getParentToken tv = .ok none ↔ d.level = 1) ∧
    (d.level ≠ 1 →
      d.getParentToken tv = .ok (some (String.intercalate joinCharacter
        (d.pathTokens.take (d.pathTokens.length - 1)) ++ joinCharacter ++ tv))) := by
  have hpos := d.level_pos
  simp only [DirInfo.level] at hpos ⊢
  simp only [DirInfo.getParentToken]
  rw [if_neg (not_not_intro h)]
  constructor
  · constructor
    · intro he
      by_contra hne
      have hz : ¬ (d.pathTokens.length - 1 = 0) := by omega
      rw [if_neg hz] at he
      exact absurd he (by simp)
    · intro hl
      have hz : d.pathTokens.length - 1 = 0 := by omega
      rw [if_pos hz]
  · intro hne
    have hz : ¬ (d.pathTokens.length - 1 = 0) := by omega
    rw [if_neg hz]

/-- Witness for C5 at the spec's scenario scopes `"orders/item"` (depth 2)
and `"orders"` (depth 1). -/
theorem c5_parent_scoped_token_witness :
    ((DirInfo.mk "/r" "orders/item").getParentToken "RES" = .ok (some "orders_RES")) ∧
    ¬ ((DirInfo.mk "/r" "orders/item").getParentToken "RES" = .ok none) ∧
    ((DirInfo.mk "/r" "orders").getParentToken "RES" = .ok none) :=
  ⟨(c5_parent_scoped_token (DirInfo.mk "/r" "orders/item") "RES" (by decide)).2 (by decide),
   fun he => absurd
     ((c5_parent_scoped_token (DirInfo.mk "/r" "orders/item") "RES" (by decide)).1.mp he)
     (by decide),
   (c5_parent_scoped_token (DirInfo.mk "/r" "orders") "RES" (by decide)).1.mpr (by decide)⟩

/-- C6: for every `PathScope`, `scopedToken(suffix)` is the
separator-join of all `pathTokens` followed by the suffix;
`rootScopedToken(suffix)` depends only on the first path segment; and at
`relativePath = "orders/item"`, `scopedToken("RES") = "orders_item_RES"`,
`parentScopedToken("RES") = "orders_RES"` and `rootScopedToken("API") =
"orders_API"`. -/
theorem c6_scoped_and_root_tokens :
    (∀ (d : DirInfo) (tv : String), tv.length > 0 →
      d.getToken tv = .ok (String.intercalate joinCharacter d.pathTokens ++
        joinCharacter ++ tv)) ∧
    (∀ (d d2 : DirInfo) (tv : String), d.pathTokens.headI = d2.pathTokens.headI →
      d.getRootToken tv = d2.getRootToken tv) ∧
    (∀ root : String, root.length > 0 →
      ∃ d, DirInfo.create root "orders/item" = .ok d ∧
        d.getToken "RES" = .ok "orders_item_RES" ∧
        d.getParentToken "RES" = .ok (some "orders_RES") ∧
        d.getRootToken "API" = .ok "orders_API") := by
  refine ⟨?_, ?_, ?_⟩
  · intro d tv h
    simp only [DirInfo.getToken]
    rw [if_neg (not_not_intro h)]
  · intro d d2 tv h
    simp only [DirInfo.getRootToken, h]
  · intro root hr
    refine ⟨⟨root, "orders/item"⟩, ?_, rfl, rfl, rfl⟩
    simp only [DirInfo.create]
    rw [if_neg (not_not_intro hr)]
    rfl

/-- Witness for C6 at concrete scopes and token values. -/
theorem c6_scoped_and_root_tokens_witness :
    ((DirInfo.mk "/r" "orders/item").getToken "RES" =
      .ok (String.intercalate joinCharacter
        (DirInfo.mk "/r" "orders/item").pathTokens ++ joinCharacter ++ "RES")) ∧
    ((DirInfo.mk "/r" "orders").getRootToken "API" =
      (DirInfo.mk "/r" "orders/item").getRootToken "API") ∧
    (∃ d, DirInfo.create "/r" "orders/item" = .ok d ∧
      d.getToken "RES" = .ok "orders_item_RES" ∧
      d.getParentToken "RES" = .ok (some "orders_RES") ∧
      d.getRootToken "API" = .ok "orders_API") :=
  ⟨c6_scoped_and_root_tokens.1 (DirInfo.mk "/r" "orders/item") "RES" (by decide),
   c6_scoped_and_root_tokens.2.1 (DirInfo.mk "/r" "orders")
     (DirInfo.mk "/r" "orders/item") "API" (by decide),
   c6_scoped_and_root_tokens.2.2 "/r" (by decide)⟩

/-- C7: deriving child `"b"` and then child `"c"` from a root scope at
`"a"` yields a scope equal (same root, same relative path, same path
tokens) to one created directly at `"a/b/c"`. -/
theorem c7_derive_child_composes (root : String) (h : root.length > 0) :
    (((DirInfo.create root "a").bind (fun d => d.getChildDir "b")).bind
        (fun d => d.getChildDir "c") = DirInfo.create root "a/b/c") ∧
    ((DirInfo.create root "a/b/c").map DirInfo.pathTokens = .ok ["a", "b", "c"]) := by
  have hc : ∀ rp : String, rp.length > 0 → DirInfo.create root rp = .ok ⟨root, rp⟩ := by
    intro rp hrp
    simp only [DirInfo.create]
    rw [if_neg (not_not_intro h), if_neg (not_not_intro hrp)]
  constructor
  · rw [hc "a" (by decide), hc "a/b/c" (by decide)]
    rfl
  · rw [hc "a/b/c" (by decide)]
    rfl

/-- Witness for C7 at the concrete root `"/r"`. -/
theorem c7_derive_child_composes_witness :
    ((((DirInfo.create "/r" "a").bind (fun d => d.getChildDir "b")).bind
        (fun d => d.getChildDir "c") = DirInfo.create "/r" "a/b/c")) ∧
    ((DirInfo.create "/r" "a/b/c").map DirInfo.pathTokens = .ok ["a", "b", "c"]) :=
  c7_derive_child_composes "/r" (by decide)

/-- C3: `finalize` never mutates the document's raw property tree — after
any sequence of `finalize` calls the stored properties are unchanged, a
property tree with no placeholders finalizes to a deep-equal copy of
itself, and two `finalize` calls with different data bags produce
independent results with no cross-contamination (each result equals the
one computed from the pristine document). -/
theorem c3_finalize_pure (t : Template) (d1 d2 : DataBag) (ds : List DataBag) :
    ((t.finalizeMany ds).1 = t) ∧
    (noPlaceholderO t.properties = true →
      (t.finalize d1).docProperties = t.properties) ∧
    ((t.finalizeCall d1).1.finalize d2 = t.finalize d2) ∧
    ((t.finalizeMany ds).2 = ds.map t.finalize) := by
  refine ⟨(finalizeMany_unchanged t ds).1, ?_, rfl, (finalizeMany_unchanged t ds).2⟩
  intro h
  simp only [Template.finalize]
  exact finalizeObj_of_no_placeholder d1 t.properties h

/-- Witness for C3 at a concrete placeholder-free document and two
different data bags. -/
theorem c3_finalize_pure_witness :
    ((sampleDoc.finalizeMany [[("x", "V")], []]).1 = sampleDoc) ∧
    ((sampleDoc.finalize [("x", "V")]).docProperties = sampleDoc.properties) ∧
    ((sampleDoc.finalizeCall [("x", "V")]).1.finalize [] = sampleDoc.finalize []) ∧
    ((sampleDoc.finalizeMany [[("x", "V")], []]).2 =
      [sampleDoc.finalize [("x", "V")], sampleDoc.finalize []]) :=
  ⟨(c3_finalize_pure sampleDoc [("x", "V")] [] [[("x", "V")], []]).1,
   (c3_finalize_pure sampleDoc [("x", "V")] [] [[("x", "V")], []]).2.1 (by decide),
   (c3_finalize_pure sampleDoc [("x", "V")] [] [[("x", "V")], []]).2.2.1,
   (c3_finalize_pure sampleDoc [("x", "V")] [] [[("x", "V")], []]).2.2.2⟩

/-- C4: `finalize`'s resolution is a structural recursion handling three
shapes uniformly — every string has each `<% identifier %>` placeholder
substituted with the data bag's value for that identifier, every ordered
sequence is mapped element-wise preserving order and length, every
string-keyed mapping is mapped value-wise preserving all keys, and every
other value passes through unchanged. -/
theorem c4_finalize_structural (data : DataBag) :
    (∀ s, finalizeProperty (.str s) data = .str (interpolate s data)) ∧
    (∀ (i v tl : String), hasClose i.data = false → lookupBag data i = some v →
      interpolate ("<% " ++ i ++ " %>" ++ tl) data = v ++ interpolate tl data) ∧
    (∀ xs, finalizeProperty (.arr xs) data =
      .arr (xs.map (fun x => finalizeProperty x data))) ∧
    (∀ xs : List Value, (xs.map (fun x => finalizeProperty x data)).length = xs.length) ∧
    (∀ kvs, finalizeProperty (.obj kvs) data =
      .obj (kvs.map (fun kv => (kv.1, finalizeProperty kv.2 data)))) ∧
    (∀ kvs : List (String × Value),
      (kvs.map (fun kv => (kv.1, finalizeProperty kv.2 data))).map Prod.fst =
        kvs.map Prod.fst) ∧
    (∀ n, finalizeProperty (.num n) data = .num n) ∧
    (∀ b, finalizeProperty (.bool b) data = .bool b) ∧
    (finalizeProperty .null data = .null) ∧
    (finalizeProperty .undef data = .undef) := by
  refine ⟨fun s => rfl, ?_, ?_, ?_, ?_, ?_, fun n => rfl, fun b => rfl, rfl, rfl⟩
  · intro i v tl hc hl
    exact interpolate_substitute data i v tl hc hl
  · intro xs
    simp only [finalizeProperty]
    rw [finalizeList_eq_map]
  · intro xs
    simp
  · intro kvs
    simp only [finalizeProperty]
    rw [finalizeObj_eq_map]
  · intro kvs
    simp [List.map_map, Function.comp]

/-- Witness for C4 at a concrete data bag, placeholder, array and
object. -/
theorem c4_finalize_structural_witness :
    (finalizeProperty (.str "hi") [("x", "V")] =
      .str (interpolate "hi" [("x", "V")])) ∧
    (interpolate ("<% " ++ "x" ++ " %>" ++ "!") [("x", "V")] =
      "V" ++ interpolate "!" [("x", "V")]) ∧
    (finalizeProperty (.arr [.num 1, .null]) [("x", "V")] =
      .arr ([Value.num 1, Value.null].map
        (fun x => finalizeProperty x [("x", "V")]))) ∧
    (([Value.num 1, Value.null].map
      (fun x => finalizeProperty x [("x", "V")])).length = 2) ∧
    (finalizeProperty (.obj [("k", .bool true)]) [("x", "V")] =
      .obj ([("k", Value.bool true)].map
        (fun kv => (kv.1, finalizeProperty kv.2 [("x", "V")])))) ∧
    (finalizeProperty (.num 7) [("x", "V")] = .num 7) :=
  ⟨(c4_finalize_structural [("x", "V")]).1 "hi",
   (c4_finalize_structural [("x", "V")]).2.1 "x" "V" "!" (by decide) (by decide),
   (c4_finalize_structural [("x", "V")]).2.2.1 [.num 1, .null],
   (c4_finalize_structural [("x", "V")]).2.2.2.1 [.num 1, .null],
   (c4_finalize_structural [("x", "V")]).2.2.2.2.1 [("k", .bool true)],
   (c4_finalize_structural [("x", "V")]).2.2.2.2.2.2.1 7⟩

/-- C2 counterexample: a generator returning a pending computation is NOT
awaited before use — the builder wraps the still-pending promise into a
one-element array exactly like a scalar, so the claimed normalization
("a pending computation is awaited before use") fails on the code, while
the spec-following normalization would unwrap it to the document. -/
theorem c2_pending_not_awaited_counterexample :
    (loadTemplates sampleScope []
        (.fn (fun _ _ => .ok (.promise (.resolved (.doc sampleDoc)))))
      = .ok [.promise (.resolved (.doc sampleDoc))]) ∧
    (normalizeResultSpec sampleScope []
        (.fn (fun _ _ => .ok (.promise (.resolved (.doc sampleDoc)))))
      = .ok [.doc sampleDoc]) ∧
    (JsVal.promise (.resolved (.doc sampleDoc)) ≠ .doc sampleDoc) :=
  ⟨rfl, rfl, fun h => JsVal.noConfusion h⟩

/-- C2 (amended): the loaded generator unit's result is normalized as
follows — a static document is wrapped into a one-element sequence, a
static sequence passes through unchanged, a callable is invoked with
`(scope, dataBag)` and its synchronous result is normalized the same way,
a throwing callable propagates its error, and a pending computation is
NOT awaited: it is treated like any other non-array value and wrapped,
still pending, into a one-element sequence. -/
theorem c2_generator_normalization (info : DirInfo) (bag : DataBag) :
    (∀ t : Template, loadTemplates info bag (.doc t) = .ok [.doc t]) ∧
    (∀ xs, loadTemplates info bag (.arr xs) = .ok xs) ∧
    (∀ f t, f info bag = .ok (.doc t) →
      loadTemplates info bag (.fn f) = .ok [.doc t]) ∧
    (∀ f xs, f info bag = .ok (.arr xs) →
      loadTemplates info bag (.fn f) = .ok xs) ∧
    (∀ f p, f info bag = .ok (.promise p) →
      loadTemplates info bag (.fn f) = .ok [.promise p]) ∧
    (∀ f e, f info bag = .error e →
      loadTemplates info bag (.fn f) = .error e) ∧
    (∀ p, loadTemplates info bag (.promise p) = .ok [.promise p]) := by
  refine ⟨fun t => rfl, fun xs => rfl, ?_, ?_, ?_, ?_, fun p => rfl⟩
  · intro f t h
    simp only [loadTemplates, invoke, h, normalizeToArray]
  · intro f xs h
    simp only [loadTemplates, invoke, h, normalizeToArray]
  · intro f p h
    simp only [loadTemplates, invoke, h, normalizeToArray]
  · intro f e h
    simp only [loadTemplates, invoke, h]

/-- Witness for the amended C2 at concrete generator shapes. -/
theorem c2_generator_normalization_witness :
    (loadTemplates sampleScope [] (.doc sampleDoc) = .ok [.doc sampleDoc]) ∧
    (loadTemplates sampleScope [] (.arr [.doc sampleDoc]) = .ok [.doc sampleDoc]) ∧
    (loadTemplates sampleScope [] (.fn (fun _ _ => .ok (.doc sampleDoc)))
      = .ok [.doc sampleDoc]) ∧
    (loadTemplates sampleScope [] (.fn (fun _ _ => .ok (.arr []))) = .ok []) ∧
    (loadTemplates sampleScope []
        (.fn (fun _ _ => .ok (.promise (.rejected ⟨"late"⟩))))
      = .ok [.promise (.rejected ⟨"late"⟩)]) ∧
    (loadTemplates sampleScope [] (.fn (fun _ _ => .error ⟨"gen threw"⟩))
      = .error ⟨"gen threw"⟩) :=
  ⟨(c2_generator_normalization sampleScope []).1 sampleDoc,
   (c2_generator_normalization sampleScope []).2.1 [.doc sampleDoc],
   (c2_generator_normalization sampleScope []).2.2.1 _ sampleDoc rfl,
   (c2_generator_normalization sampleScope []).2.2.2.1 _ [] rfl,
   (c2_generator_normalization sampleScope []).2.2.2.2.1 _ (.rejected ⟨"late"⟩) rfl,
   (c2_generator_normalization sampleScope []).2.2.2.2.2.1 _ ⟨"gen threw"⟩ rfl⟩

/-- C1: the claim says a failing entry makes the enclosing `build()` fail
with that error and no partial list.  The code instead leaves the
`build()` promise forever pending on a per-entry metadata (`stat`)
failure, resolves successfully with the un-awaited rejected promise
embedded in the list when a generator's result rejects, and crashes the
process when a generator module throws — it never rejects the enclosing
`build()` promise with the entry's error. -/
theorem c1_entry_failure_behavior :
    (TemplateBuilder.build [] sampleScope (.ok [("bad", .statFail ⟨"EACCES"⟩)])
      = .hung) ∧
    (TemplateBuilder.build [] sampleScope
        (.ok [("gen.js", .file (.ok (.promise (.rejected ⟨"boom"⟩))))])
      = .resolved [.promise (.rejected ⟨"boom"⟩)]) ∧
    (TemplateBuilder.build [] sampleScope
        (.ok [("gen.js", .file (.error ⟨"throw in module"⟩))])
      = .crashed ⟨"throw in module"⟩) ∧
    (TemplateBuilder.build [] sampleScope
        (.ok [("sub", .dir (.error ⟨"ENOENT"⟩))])
      = .hung) :=
  ⟨rfl, rfl, rfl, rfl⟩

/-- C9: for every directory whose listing operation fails, `build()` on
that directory fails with the listing's `IOError`, which is what the
caller of that `build()` observes — no document list is produced. -/
theorem c9_listing_failure (e : JsErr) (bag : DataBag) (info : DirInfo) :
    TemplateBuilder.build bag info (.error e) = .rejected e := rfl

/-- C8: `ensureProperty(path, defaultValue)` creates every missing
intermediate mapping along the path, initializes the final segment to the
default only if absent, leaves an existing value untouched, and is
idempotent — a second call with the same path and default leaves the
property tree unchanged.  (Modelled from the spec: `_ensureProperty`'s
definition is not among the provided sources.) -/
theorem c8_ensure_property (p : List String) (m : List (String × Value))
    (d : Value) (h : p ≠ []) :
    (getAtPath p (ensurePath p m d) = some ((getAtPath p m).getD d)) ∧
    (ensurePath p (ensurePath p m d) d = ensurePath p m d) ∧
    (getAtPath p m = none → getAtPath p (ensurePath p m d) = some d) ∧
    (∀ v, getAtPath p m = some v → getAtPath p (ensurePath p m d) = some v) := by
  refine ⟨getAtPath_ensurePath d p m h, ensurePath_idempotent d p m, ?_, ?_⟩
  · intro hn
    rw [getAtPath_ensurePath d p m h, hn]
    rfl
  · intro v hv
    rw [getAtPath_ensurePath d p m h, hv]
    rfl

/-- Witness for C8 at the dotted path `Integration.RequestTemplates` used
by `method-template.js`, against trees where the target is absent and
where it is present. -/
theorem c8_ensure_property_witness :
    (getAtPath ["Integration", "RequestTemplates"]
        (ensurePath ["Integration", "RequestTemplates"]
          [("RestApiId", Value.null)] (.obj []))
      = some ((getAtPath ["Integration", "RequestTemplates"]
          [("RestApiId", Value.null)]).getD (.obj []))) ∧
    (ensurePath ["Integration", "RequestTemplates"]
        (ensurePath ["Integration", "RequestTemplates"]
          [("RestApiId", Value.null)] (.obj []))
        (.obj [])
      = ensurePath ["Integration", "RequestTemplates"]
          [("RestApiId", Value.null)] (.obj [])) ∧
    (getAtPath ["Integration", "RequestTemplates"]
        (ensurePath ["Integration", "RequestTemplates"]
          [("RestApiId", Value.null)] (.obj []))
      = some (.obj [])) ∧
    (getAtPath ["Integration", "RequestTemplates"]
        (ensurePath ["Integration", "RequestTemplates"]
          [("Integration", Value.obj [("RequestTemplates", Value.str "T")])]
          (.obj []))
      = some (.str "T")) :=
  ⟨(c8_ensure_property ["Integration", "RequestTemplates"]
      [("RestApiId", Value.null)] (.obj []) (by decide)).1,
   (c8_ensure_property ["Integration", "RequestTemplates"]
      [("RestApiId", Value.null)] (.obj []) (by decide)).2.1,
   (c8_ensure_property ["Integration", "RequestTemplates"]
      [("RestApiId", Value.null)] (.obj []) (by decide)).2.2.1 rfl,
   (c8_ensure_property ["Integration", "RequestTemplates"]
      [("Integration", Value.obj [("RequestTemplates", Value.str "T")])]
      (.obj []) (by decide)).2.2.2 (.str "T") rfl⟩

/-- C10: constructing a `Document` with a caller-supplied exports mapping
mutates the caller's own object — the entry mapping the original key to
its camel-cased key is written into the supplied exports object before
the defensive copy is taken, so the side effect is visible to the caller
after construction (and the template's own stored copy contains it
too). -/
theorem c10_constructor_mutates_exports (key type : String)
    (props : List (String × Value)) (exports : List (String × String))
    (hk : key.length > 0) (ht : type.length > 0) :
    (Template.create key type props exports
      = .ok ({ key := camelCase key, resourceType := type, properties := props,
               exports := setKey exports key (camelCase key) },
             setKey exports key (camelCase key))) ∧
    (getKey (setKey exports key (camelCase key)) key = some (camelCase key)) := by
  constructor
  · simp only [Template.create]
    rw [if_neg (not_not_intro hk), if_neg (not_not_intro ht)]
  · exact getKey_setKey_self key (camelCase key) exports

/-- Witness for C10 at a concrete key, type and pre-populated caller
exports object. -/
theorem c10_constructor_mutates_exports_witness :
    (Template.create "first-template" "AWS::ApiGateway::Resource"
        [] [("other", "x")]
      = .ok ({ key := camelCase "first-template",
               resourceType := "AWS::ApiGateway::Resource",
               properties := [],
               exports := setKey [("other", "x")] "first-template"
                 (camelCase "first-template") },
             setKey [("other", "x")] "first-template"
               (camelCase "first-template"))) ∧
    (getKey (setKey [("other", "x")] "first-template"
        (camelCase "first-template")) "first-template"
      = some (camelCase "first-template")) :=
  c10_constructor_mutates_exports "first-template" "AWS::ApiGateway::Resource"
    [] [("other", "x")] (by decide) (by decide)
